import Mathlib

/-!
# Typed settings registry: `src/settings.c`

A shallow embedding of the settings module of forked-daapd and the properties
of its lookup, type-gating and default-resolution protocol.

Conventions of the embedding

* A C string is represented by the Lean `String` of its characters before the
  terminating NUL; a nullable `const char *` is an `Option String`.
* A nullable pointer to a struct is an `Option` of the struct; `NULL` is `none`.
* `int` values are `Int`; the module performs no arithmetic on them.
* A call that dereferences `NULL` or reads an array out of bounds has no defined
  result in C; such a call is `Result.fault`.
* The persistent store (`db.h`) and the resolver functions defined in other
  translation units are parameters of the accessors.
-/

namespace Settings

/-! ## Data model -/

/-- Outcome of a call that touches memory: a returned value, or undefined
behaviour (a null dereference or an out-of-bounds array read). -/
inductive Result (α : Type) where
  | ret (v : α)
  | fault
deriving DecidableEq, Repr

/-- Modelled from the spec: `enum settings_type` of `settings.h` (the header is
not among the sources); the spec names the three types Int, Bool and Str. -/
inductive settings_type where
  | SETTINGS_TYPE_INT
  | SETTINGS_TYPE_BOOL
  | SETTINGS_TYPE_STR
deriving DecidableEq, Repr

/-- Addresses of functions of type `bool (*)(struct settings_option *)`: the
three static resolvers of `settings.c`, or a function defined elsewhere. -/
inductive getbool_fn where
  | artwork_spotify_default_getbool
  | artwork_discogs_default_getbool
  | artwork_coverartarchive_default_getbool
  | other (addr : Nat)
deriving DecidableEq, Repr

/-- The `struct settings_option`: name, declared type and the three resolver
slots (`none` is a `NULL` function pointer). `settings.c` defines no resolver of
type int or string, so those slots hold addresses of functions defined
elsewhere. -/
structure settings_option where
  name : String
  type : settings_type
  default_getint : Option Nat
  default_getbool : Option getbool_fn
  default_getstr : Option Nat
deriving DecidableEq, Repr

/-- The `struct settings_category`: name, the options array and its declared
length. -/
structure settings_category where
  name : String
  options : List settings_option
  count_options : Int
deriving DecidableEq, Repr

/-- The macro `ARRAY_SIZE`: number of elements of a static array. -/
def ARRAY_SIZE {α : Type} (a : List α) : Int := (a.length : Int)

/-- Read of `a[i]`; outside the array the read is undefined. -/
def array_read {α : Type} (a : List α) (i : Int) : Result α :=
  if i < 0 then Result.fault
  else
    match a.get? i.toNat with
    | some v => Result.ret v
    | none => Result.fault

/-! ## The static catalog (lines 32-49) -/

def webinterface_options : List settings_option :=
  [ ⟨"show_composer_now_playing", settings_type.SETTINGS_TYPE_BOOL, none, none, none⟩,
    ⟨"show_composer_for_genre", settings_type.SETTINGS_TYPE_STR, none, none, none⟩ ]

def artwork_options : List settings_option :=
  [ ⟨"use_artwork_source_spotify", settings_type.SETTINGS_TYPE_BOOL, none,
      some getbool_fn.artwork_spotify_default_getbool, none⟩,
    ⟨"use_artwork_source_discogs", settings_type.SETTINGS_TYPE_BOOL, none,
      some getbool_fn.artwork_discogs_default_getbool, none⟩,
    ⟨"use_artwork_source_coverartarchive", settings_type.SETTINGS_TYPE_BOOL, none,
      some getbool_fn.artwork_coverartarchive_default_getbool, none⟩ ]

def categories : List settings_category :=
  [ ⟨"webinterface", webinterface_options, ARRAY_SIZE webinterface_options⟩,
    ⟨"artwork", artwork_options, ARRAY_SIZE artwork_options⟩ ]

/-! ## `strcasecmp` (libc) -/

/-- The function `tolower` of the C locale on a character code. -/
def tolower (c : Nat) : Nat :=
  if 65 ≤ c ∧ c ≤ 90 then c + 32 else c

/-- The comparison loop of `strcasecmp` on the character codes of two strings:
the difference of the first pair of codes that differ after `tolower`, the
terminating NUL counting as code 0. -/
def strcasecmp_codes : List Nat → List Nat → Int
  | [], [] => 0
  | [], b :: _ => 0 - (tolower b : Int)
  | a :: _, [] => (tolower a : Int) - 0
  | a :: as, b :: bs =>
    if tolower a = tolower b then strcasecmp_codes as bs
    else (tolower a : Int) - (tolower b : Int)

/-- Character codes of the C string a Lean string denotes: the codes of its
characters up to the first NUL, where a C string ends. The module uses
`strcasecmp` only through the test `== 0`; `tolower` changes the letters A-Z
alone, so on the code points that test agrees with the one on the bytes of the
UTF-8 encoding. -/
def codes (s : String) : List Nat := (s.data.map Char.toNat).takeWhile (fun c => c ≠ 0)

/-- The libc function `strcasecmp` on two non-null strings. -/
def strcasecmp (s1 s2 : String) : Int := strcasecmp_codes (codes s1) (codes s2)

/-- ASCII case folding of a name: its character codes with the upper-case
letters A-Z replaced by their lower-case letters. Two names are equal
case-insensitively when their foldings are equal. -/
def casefold (s : String) : List Nat := (codes s).map tolower

/-- The option is null or its declared type is not `t`: the condition under
which the accessor of type `t` refuses the option. -/
def type_mismatch (option : Option settings_option) (t : settings_type) : Prop :=
  match option with
  | none => True
  | some o => o.type ≠ t

instance type_mismatch_decidable (option : Option settings_option) (t : settings_type) :
    Decidable (type_mismatch option t) := by
  unfold type_mismatch
  cases option <;> infer_instance

/-! ## Default resolvers (lines 54-95) -/

/-- Modelled from the spec: the parsed configuration `cfg` of `conffile.h`, of
which the module reads only the list `artwork_online_sources` of the section
`library`. -/
structure cfg_t where
  library_artwork_online_sources : List String
deriving DecidableEq, Repr

/-- Modelled from the spec: `cfg_size(lib, "artwork_online_sources")`, the
number of entries of the configured list, 0 when unconfigured. -/
def cfg_size (cfg : cfg_t) : Nat := cfg.library_artwork_online_sources.length

/-- Modelled from the spec: `cfg_getnstr(lib, "artwork_online_sources", i)` for
an index below `cfg_size`. -/
def cfg_getnstr (cfg : cfg_t) (i : Nat) (h : i < cfg_size cfg) : String :=
  cfg.library_artwork_online_sources.get ⟨i, h⟩

/-- The `for` loop of `artwork_default_getbool` from index `i`, with `todo`
iterations left (`i + todo = n_cfg`). -/
def artwork_default_getbool_loop (cfg : cfg_t) (cfg_name : String) :
    (todo : Nat) → (i : Nat) → i + todo = cfg_size cfg → Bool
  | 0, _, _ => false
  | todo + 1, i, h =>
    if strcasecmp (cfg_getnstr cfg i (by omega)) cfg_name = 0 then true
    else artwork_default_getbool_loop cfg cfg_name todo (i + 1) (by omega)

def artwork_default_getbool (cfg : cfg_t) (no_cfg_default : Bool) (cfg_name : String) : Bool :=
  if cfg_size cfg = 0 then no_cfg_default
  else artwork_default_getbool_loop cfg cfg_name (cfg_size cfg) 0 (by omega)

def artwork_spotify_default_getbool (cfg : cfg_t) (_option : settings_option) : Bool :=
  artwork_default_getbool cfg true "spotify"

def artwork_discogs_default_getbool (cfg : cfg_t) (_option : settings_option) : Bool :=
  artwork_default_getbool cfg false "discogs"

def artwork_coverartarchive_default_getbool (cfg : cfg_t) (_option : settings_option) : Bool :=
  artwork_default_getbool cfg false "coverartarchive"

/-! ## Registry (lines 100-158) -/

def settings_categories_count : Int := ARRAY_SIZE categories

def settings_category_get_byindex (index : Int) : Result (Option settings_category) :=
  if index < 0 ∨ settings_categories_count ≤ index then Result.ret none
  else
    match array_read categories index with
    | Result.ret c => Result.ret (some c)
    | Result.fault => Result.fault

/-- The `for` loop of `settings_category_get` from index `i`, with `todo`
iterations left (`todo = settings_categories_count - i`). -/
def settings_category_get_loop (name : Option String) :
    (todo : Nat) → (i : Int) → Result (Option settings_category)
  | 0, _ => Result.ret none
  | todo + 1, i =>
    match array_read categories i with
    | Result.fault => Result.fault
    | Result.ret c =>
      match name with
      | none => Result.fault
      | some n =>
        if strcasecmp n c.name = 0 then Result.ret (some c)
        else settings_category_get_loop name todo (i + 1)

def settings_category_get (name : Option String) : Result (Option settings_category) :=
  settings_category_get_loop name settings_categories_count.toNat 0

def settings_option_count (category : Option settings_category) : Result Int :=
  match category with
  | none => Result.fault
  | some c => Result.ret c.count_options

def settings_option_get_byindex (category : Option settings_category) (index : Int) :
    Result (Option settings_option) :=
  if index < 0 then Result.ret none
  else
    match category with
    | none => Result.ret none
    | some c =>
      if c.count_options ≤ index then Result.ret none
      else
        match array_read c.options index with
        | Result.ret o => Result.ret (some o)
        | Result.fault => Result.fault

/-- The `for` loop of `settings_option_get` from index `i`, with `todo`
iterations left (`todo = category->count_options - i`). -/
def settings_option_get_loop (c : settings_category) (name : String) :
    (todo : Nat) → (i : Int) → Result (Option settings_option)
  | 0, _ => Result.ret none
  | todo + 1, i =>
    match array_read c.options i with
    | Result.fault => Result.fault
    | Result.ret o =>
      if strcasecmp name o.name = 0 then Result.ret (some o)
      else settings_option_get_loop c name todo (i + 1)

def settings_option_get (category : Option settings_category) (name : Option String) :
    Result (Option settings_option) :=
  match category, name with
  | none, _ => Result.ret none
  | some _, none => Result.ret none
  | some c, some n => settings_option_get_loop c n c.count_options.toNat 0

/-! ## Collaborators of the accessors -/

/-- The admin key-value store of `db.h` over a store state `σ`. A read returns
`some v` when the call returns 0 with the value `v` in its out-parameter, and
`none` when it returns a nonzero code; a write returns its code and the store
after the call. -/
structure database (σ : Type) where
  db_admin_getint : σ → String → Option Int
  db_admin_get : σ → String → Option String
  db_admin_setint : σ → String → Int → Int × σ
  db_admin_set : σ → String → String → Int × σ

/-- The resolver functions defined outside `settings.c`, by address: each
computes its result from the configuration, the store and the option passed. -/
structure resolvers (σ : Type) where
  getint : Nat → cfg_t → σ → settings_option → Int
  getbool : Nat → cfg_t → σ → settings_option → Bool
  getstr : Nat → cfg_t → σ → settings_option → Option String

/-- The call `option->default_getbool(option)` through a function pointer. -/
def call_default_getbool {σ : Type} (R : resolvers σ) (cfg : cfg_t) (s : σ) :
    getbool_fn → settings_option → Bool
  | getbool_fn.artwork_spotify_default_getbool, o => artwork_spotify_default_getbool cfg o
  | getbool_fn.artwork_discogs_default_getbool, o => artwork_discogs_default_getbool cfg o
  | getbool_fn.artwork_coverartarchive_default_getbool, o =>
    artwork_coverartarchive_default_getbool cfg o
  | getbool_fn.other addr, o => R.getbool addr cfg s o

/-! ## Accessors (lines 161-243) -/

def settings_option_getint {σ : Type} (db : database σ) (R : resolvers σ) (cfg : cfg_t) (s : σ)
    (option : Option settings_option) : Int :=
  match option with
  | none => 0
  | some o =>
    if o.type ≠ settings_type.SETTINGS_TYPE_INT then 0
    else
      match db.db_admin_getint s o.name with
      | some intval => intval
      | none =>
        match o.default_getint with
        | some f => R.getint f cfg s o
        | none => 0

def settings_option_getbool {σ : Type} (db : database σ) (R : resolvers σ) (cfg : cfg_t) (s : σ)
    (option : Option settings_option) : Bool :=
  match option with
  | none => false
  | some o =>
    if o.type ≠ settings_type.SETTINGS_TYPE_BOOL then false
    else
      match db.db_admin_getint s o.name with
      | some intval => decide (intval ≠ 0)
      | none =>
        match o.default_getbool with
        | some f => call_default_getbool R cfg s f o
        | none => false

def settings_option_getstr {σ : Type} (db : database σ) (R : resolvers σ) (cfg : cfg_t) (s : σ)
    (option : Option settings_option) : Option String :=
  match option with
  | none => none
  | some o =>
    if o.type ≠ settings_type.SETTINGS_TYPE_STR then none
    else
      match db.db_admin_get s o.name with
      | some str => some str
      | none =>
        match o.default_getstr with
        | some f => R.getstr f cfg s o
        | none => none

def settings_option_setint {σ : Type} (db : database σ) (s : σ)
    (option : Option settings_option) (value : Int) : Int × σ :=
  match option with
  | none => (-1, s)
  | some o =>
    if o.type ≠ settings_type.SETTINGS_TYPE_INT then (-1, s)
    else db.db_admin_setint s o.name value

def settings_option_setbool {σ : Type} (db : database σ) (s : σ)
    (option : Option settings_option) (value : Bool) : Int × σ :=
  match option with
  | none => (-1, s)
  | some o =>
    if o.type ≠ settings_type.SETTINGS_TYPE_BOOL then (-1, s)
    else db.db_admin_setint s o.name (if value then 1 else 0)

def settings_option_setstr {σ : Type} (db : database σ) (s : σ)
    (option : Option settings_option) (value : String) : Int × σ :=
  match option with
  | none => (-1, s)
  | some o =>
    if o.type ≠ settings_type.SETTINGS_TYPE_STR then (-1, s)
    else db.db_admin_set s o.name value

/-! ## A reference store -/

/-- A stored value: the store keeps integers and strings. -/
inductive admin_value where
  | int (v : Int)
  | str (v : String)
deriving DecidableEq, Repr

/-- First row of the table under a key. -/
def admin_lookup (k : String) : List (String × admin_value) → Option admin_value
  | [] => none
  | (k1, v) :: rest => if k1 = k then some v else admin_lookup k rest

/-- Modelled from the spec: a healthy key-value store as section 6 describes it
(`db.c` is not among the sources). The state is the table of rows; a write
succeeds and shadows earlier rows of its key, a read finds the latest row of the
key and reports not-found when the key has no row of the requested kind. -/
def mem_db : database (List (String × admin_value)) where
  db_admin_getint := fun s k =>
    match admin_lookup k s with
    | some (admin_value.int v) => some v
    | _ => none
  db_admin_get := fun s k =>
    match admin_lookup k s with
    | some (admin_value.str v) => some v
    | _ => none
  db_admin_setint := fun s k v => (0, (k, admin_value.int v) :: s)
  db_admin_set := fun s k v => (0, (k, admin_value.str v) :: s)

/-- A resolver table whose functions return the zero value of their type. -/
def no_resolvers (σ : Type) : resolvers σ where
  getint := fun _ _ _ _ => 0
  getbool := fun _ _ _ _ => false
  getstr := fun _ _ _ _ => none

/-- A resolver table for the examples: the int resolver at address 1 returns
the length of the option name, the others the zero value of their type. -/
def sample_resolvers (σ : Type) : resolvers σ where
  getint := fun addr _ _ o => if addr = 1 then (o.name.length : Int) else 0
  getbool := fun _ _ _ _ => false
  getstr := fun _ _ _ _ => none

/-- A resolver table for the examples with a function of each type that differs
from the fallback value of its getter: the int resolver at address 1 returns the
length of the option name, the bool resolver at address 2 returns true, and the
string resolver at address 3 returns the option name. -/
def typed_resolvers (σ : Type) : resolvers σ where
  getint := fun addr _ _ o => if addr = 1 then (o.name.length : Int) else 0
  getbool := fun addr _ _ _ => decide (addr = 2)
  getstr := fun addr _ _ o => if addr = 3 then some o.name else none

/-- Modelled from the spec: an unavailable store (section 7, store failure):
every read reports not-found, every write returns the failure code -1 and
leaves the state as it was. -/
def failing_db (σ : Type) : database σ where
  db_admin_getint := fun _ _ => none
  db_admin_get := fun _ _ => none
  db_admin_setint := fun s _ _ => (-1, s)
  db_admin_set := fun s _ _ => (-1, s)

/-- The options of the catalog, over all categories in declaration order. -/
def catalog_options : List settings_option := (categories.map settings_category.options).flatten

/-- The store is keyed by name: a write under one key, of either kind, leaves
the reads of both kinds under every other key as they were. -/
def store_keyed_by_name {σ : Type} (db : database σ) : Prop :=
  ∀ (s : σ) (k k1 : String), k ≠ k1 →
    (∀ v : Int,
      db.db_admin_getint (db.db_admin_setint s k v).2 k1 = db.db_admin_getint s k1 ∧
      db.db_admin_get (db.db_admin_setint s k v).2 k1 = db.db_admin_get s k1) ∧
    (∀ v : String,
      db.db_admin_getint (db.db_admin_set s k v).2 k1 = db.db_admin_getint s k1 ∧
      db.db_admin_get (db.db_admin_set s k v).2 k1 = db.db_admin_get s k1)

/-! ## Lemmas on `strcasecmp` -/

theorem tolower_idem (c : Nat) : tolower (tolower c) = tolower c := by
  unfold tolower
  split_ifs <;> omega

theorem tolower_ne_zero {c : Nat} (h : c ≠ 0) : tolower c ≠ 0 := by
  unfold tolower
  split_ifs <;> omega

theorem codes_ne_zero (s : String) : ∀ c ∈ codes s, c ≠ 0 := by
  intro c hc
  have h := List.mem_takeWhile_imp hc
  simpa using h

/-- On NUL-free codes `strcasecmp` returns 0 exactly when the two strings have
the same case folding. -/
theorem strcasecmp_codes_eq_zero_iff :
    ∀ (a b : List Nat), (∀ x ∈ a, x ≠ 0) → (∀ x ∈ b, x ≠ 0) →
      (strcasecmp_codes a b = 0 ↔ a.map tolower = b.map tolower)
  | [], [], _, _ => by simp [strcasecmp_codes]
  | [], b :: bs, _, hb => by
    have h0 : tolower b ≠ 0 := tolower_ne_zero (hb b (by simp))
    simp only [strcasecmp_codes, List.map_nil, List.map_cons]
    constructor
    · intro h
      omega
    · intro h
      cases h
  | a :: as, [], ha, _ => by
    have h0 : tolower a ≠ 0 := tolower_ne_zero (ha a (by simp))
    simp only [strcasecmp_codes, List.map_nil, List.map_cons]
    constructor
    · intro h
      omega
    · intro h
      cases h
  | a :: as, b :: bs, ha, hb => by
    have ih := strcasecmp_codes_eq_zero_iff as bs
      (fun x hx => ha x (List.mem_cons_of_mem _ hx))
      (fun x hx => hb x (List.mem_cons_of_mem _ hx))
    simp only [strcasecmp_codes, List.map_cons]
    by_cases hab : tolower a = tolower b
    · simp [hab, ih]
    · simp only [hab, if_false]
      constructor
      · intro h
        omega
      · intro h
        exact absurd (List.head_eq_of_cons_eq h) hab

theorem strcasecmp_eq_zero_iff (s1 s2 : String) :
    strcasecmp s1 s2 = 0 ↔ casefold s1 = casefold s2 :=
  strcasecmp_codes_eq_zero_iff _ _ (codes_ne_zero s1) (codes_ne_zero s2)

theorem artwork_default_getbool_loop_eq (cfg : cfg_t) (cfg_name : String) :
    ∀ (todo i : Nat) (h : i + todo = cfg_size cfg),
      artwork_default_getbool_loop cfg cfg_name todo i h =
        (cfg.library_artwork_online_sources.drop i).any
          (fun e => decide (strcasecmp e cfg_name = 0))
  | 0, i, h => by
    have hi : cfg.library_artwork_online_sources.length ≤ i := by
      unfold cfg_size at h
      omega
    simp [artwork_default_getbool_loop, List.drop_eq_nil_of_le hi]
  | todo + 1, i, h => by
    have hi : i < cfg.library_artwork_online_sources.length := by
      unfold cfg_size at h
      omega
    have ih := artwork_default_getbool_loop_eq cfg cfg_name todo (i + 1) (by omega)
    rw [List.drop_eq_getElem_cons hi]
    simp only [artwork_default_getbool_loop, cfg_getnstr, List.get_eq_getElem, ih, List.any_cons]
    by_cases h0 : strcasecmp cfg.library_artwork_online_sources[i] cfg_name = 0
    · simp [h0]
    · simp [h0]

/-- With an empty allow-list the resolver returns its fixed default; with a
non-empty one it returns whether some entry equals the source name
case-insensitively. -/
theorem artwork_default_getbool_spec (cfg : cfg_t) (no_cfg_default : Bool) (cfg_name : String) :
    (cfg.library_artwork_online_sources = [] →
      artwork_default_getbool cfg no_cfg_default cfg_name = no_cfg_default) ∧
    (cfg.library_artwork_online_sources ≠ [] →
      (artwork_default_getbool cfg no_cfg_default cfg_name = true ↔
        ∃ e ∈ cfg.library_artwork_online_sources, casefold e = casefold cfg_name)) := by
  constructor
  · intro h
    simp [artwork_default_getbool, cfg_size, h]
  · intro h
    have hlen : cfg.library_artwork_online_sources.length ≠ 0 := by
      simpa [List.length_eq_zero] using h
    simp only [artwork_default_getbool, cfg_size, hlen, if_false,
      artwork_default_getbool_loop_eq, List.drop_zero, List.any_eq_true, decide_eq_true_eq,
      strcasecmp_eq_zero_iff]

/-! ## Type gating -/

/-- C1. Reads are type-gated: on a null option or an option whose declared type
is not the accessor type, `settings_option_getstr` returns absent,
`settings_option_getint` returns 0 and `settings_option_getbool` returns false,
for every store, store state, resolver table and allow-list; and
`settings_option_getstr` is absent on every Bool-typed option of the catalog. -/
theorem getters_type_gated {σ : Type} (db : database σ) (R : resolvers σ) (cfg : cfg_t) (s : σ)
    (option : Option settings_option) :
    (type_mismatch option settings_type.SETTINGS_TYPE_STR →
      settings_option_getstr db R cfg s option = none) ∧
    (type_mismatch option settings_type.SETTINGS_TYPE_INT →
      settings_option_getint db R cfg s option = 0) ∧
    (type_mismatch option settings_type.SETTINGS_TYPE_BOOL →
      settings_option_getbool db R cfg s option = false) ∧
    (∀ c ∈ categories, ∀ o ∈ c.options, o.type = settings_type.SETTINGS_TYPE_BOOL →
      settings_option_getstr db R cfg s (some o) = none) := by
  refine ⟨?_, ?_, ?_, ?_⟩
  · intro h
    cases option with
    | none => rfl
    | some o => simp only [type_mismatch] at h; simp [settings_option_getstr, h]
  · intro h
    cases option with
    | none => rfl
    | some o => simp only [type_mismatch] at h; simp [settings_option_getint, h]
  · intro h
    cases option with
    | none => rfl
    | some o => simp only [type_mismatch] at h; simp [settings_option_getbool, h]
  · intro c _ o _ ho
    simp [settings_option_getstr, ho]

/-- C1 at a concrete input: a string stored under the name of the Bool-typed
option `use_artwork_source_spotify` is not returned by `settings_option_getstr`. -/
theorem getters_type_gated_witness :
    type_mismatch
        (some ⟨"use_artwork_source_spotify", settings_type.SETTINGS_TYPE_BOOL, none,
          some getbool_fn.artwork_spotify_default_getbool, none⟩)
        settings_type.SETTINGS_TYPE_STR ∧
      settings_option_getstr mem_db (no_resolvers _) ⟨["spotify"]⟩
        [("use_artwork_source_spotify", admin_value.str "yes")]
        (some ⟨"use_artwork_source_spotify", settings_type.SETTINGS_TYPE_BOOL, none,
          some getbool_fn.artwork_spotify_default_getbool, none⟩) = none :=
  ⟨by decide,
    (getters_type_gated mem_db (no_resolvers _) ⟨["spotify"]⟩
      [("use_artwork_source_spotify", admin_value.str "yes")] _).1 (by decide)⟩

/-- C2. Writes are type-gated and atomic: on a null option or an option whose
declared type is not the accessor type, each setter returns -1 and the store
state after the call is the state before it, for every store and value; in
particular `settings_option_setint` on the catalog option
`show_composer_for_genre` fails and leaves the store unchanged. -/
theorem setters_type_gated {σ : Type} (db : database σ) (s : σ)
    (option : Option settings_option) :
    (∀ v : Int, type_mismatch option settings_type.SETTINGS_TYPE_INT →
      settings_option_setint db s option v = (-1, s)) ∧
    (∀ b : Bool, type_mismatch option settings_type.SETTINGS_TYPE_BOOL →
      settings_option_setbool db s option b = (-1, s)) ∧
    (∀ v : String, type_mismatch option settings_type.SETTINGS_TYPE_STR →
      settings_option_setstr db s option v = (-1, s)) ∧
    (∃ (c : settings_category) (o : settings_option),
      settings_category_get (some "webinterface") = Result.ret (some c) ∧
      settings_option_get (some c) (some "show_composer_for_genre") = Result.ret (some o) ∧
      o.type = settings_type.SETTINGS_TYPE_STR ∧
      ∀ v : Int, settings_option_setint db s (some o) v = (-1, s)) := by
  refine ⟨?_, ?_, ?_, ?_⟩
  · intro v h
    cases option with
    | none => rfl
    | some o => simp only [type_mismatch] at h; simp [settings_option_setint, h]
  · intro b h
    cases option with
    | none => rfl
    | some o => simp only [type_mismatch] at h; simp [settings_option_setbool, h]
  · intro v h
    cases option with
    | none => rfl
    | some o => simp only [type_mismatch] at h; simp [settings_option_setstr, h]
  · exact ⟨⟨"webinterface", webinterface_options, 2⟩,
      ⟨"show_composer_for_genre", settings_type.SETTINGS_TYPE_STR, none, none, none⟩,
      by decide, by decide, rfl, fun _ => rfl⟩

/-- C2 at a concrete input: `settings_option_setint` with value 7 on the
Str-typed option `show_composer_for_genre` over a store holding one row. -/
theorem setters_type_gated_witness :
    type_mismatch
        (some ⟨"show_composer_for_genre", settings_type.SETTINGS_TYPE_STR, none, none, none⟩)
        settings_type.SETTINGS_TYPE_INT ∧
      settings_option_setint mem_db [("show_composer_for_genre", admin_value.str "Classical")]
        (some ⟨"show_composer_for_genre", settings_type.SETTINGS_TYPE_STR, none, none, none⟩) 7 =
        (-1, [("show_composer_for_genre", admin_value.str "Classical")]) :=
  ⟨by decide,
    (setters_type_gated mem_db [("show_composer_for_genre", admin_value.str "Classical")] _).1 7
      (by decide)⟩

/-! ## Store precedence and default resolution -/

/-- C3. Store precedence: when the store holds a value under the name of an
option of the accessor type, `settings_option_getint` returns the stored integer
verbatim, `settings_option_getbool` returns true exactly when the stored integer
is nonzero, and `settings_option_getstr` returns the stored string; the result
is the same for every resolver table, every resolver slot of the option and
every allow-list. With 0 stored under `use_artwork_source_spotify` the catalog
option reads false under the empty allow-list. -/
theorem store_precedence {σ : Type} (db : database σ) (R : resolvers σ) (cfg : cfg_t) (s : σ)
    (o : settings_option) :
    (∀ v : Int, o.type = settings_type.SETTINGS_TYPE_INT →
      db.db_admin_getint s o.name = some v →
      settings_option_getint db R cfg s (some o) = v) ∧
    (∀ v : Int, o.type = settings_type.SETTINGS_TYPE_BOOL →
      db.db_admin_getint s o.name = some v →
      (settings_option_getbool db R cfg s (some o) = true ↔ v ≠ 0)) ∧
    (∀ str : String, o.type = settings_type.SETTINGS_TYPE_STR →
      db.db_admin_get s o.name = some str →
      settings_option_getstr db R cfg s (some o) = some str) ∧
    (db.db_admin_getint s "use_artwork_source_spotify" = some 0 →
      ∀ p ∈ artwork_options, p.name = "use_artwork_source_spotify" →
        settings_option_getbool db R ⟨[]⟩ s (some p) = false) := by
  refine ⟨?_, ?_, ?_, ?_⟩
  · intro v ht hv
    simp [settings_option_getint, ht, hv]
  · intro v ht hv
    simp [settings_option_getbool, ht, hv]
  · intro str ht hv
    simp [settings_option_getstr, ht, hv]
  · intro hv p hp hname
    simp only [artwork_options, List.mem_cons, List.mem_singleton, List.not_mem_nil,
      or_false] at hp
    rcases hp with rfl | rfl | rfl
    · simp [settings_option_getbool, hv]
    · exact absurd hname (by decide)
    · exact absurd hname (by decide)

/-- C3 at a concrete input: with -5 stored under an Int-typed option that also
carries a resolver, `settings_option_getint` returns -5. -/
theorem store_precedence_witness :
    settings_option_getint mem_db (no_resolvers _) ⟨["discogs"]⟩
      [("volume", admin_value.int (-5))]
      (some ⟨"volume", settings_type.SETTINGS_TYPE_INT, some 1, none, none⟩) = -5 :=
  (store_precedence mem_db (no_resolvers _) ⟨["discogs"]⟩ [("volume", admin_value.int (-5))]
    ⟨"volume", settings_type.SETTINGS_TYPE_INT, some 1, none, none⟩).1 (-5) rfl rfl

/-- Value of `settings_option_getbool` on a Bool-typed option without a stored
value that carries one of the three artwork resolvers. -/
theorem getbool_artwork {σ : Type} (db : database σ) (R : resolvers σ) (cfg : cfg_t) (s : σ)
    (o : settings_option) (ht : o.type = settings_type.SETTINGS_TYPE_BOOL)
    (hv : db.db_admin_getint s o.name = none) :
    (o.default_getbool = some getbool_fn.artwork_spotify_default_getbool →
      settings_option_getbool db R cfg s (some o) = artwork_default_getbool cfg true "spotify") ∧
    (o.default_getbool = some getbool_fn.artwork_discogs_default_getbool →
      settings_option_getbool db R cfg s (some o) = artwork_default_getbool cfg false "discogs") ∧
    (o.default_getbool = some getbool_fn.artwork_coverartarchive_default_getbool →
      settings_option_getbool db R cfg s (some o) =
        artwork_default_getbool cfg false "coverartarchive") := by
  refine ⟨?_, ?_, ?_⟩ <;> intro hf
  · simp [settings_option_getbool, ht, hv, hf, call_default_getbool,
      artwork_spotify_default_getbool]
  · simp [settings_option_getbool, ht, hv, hf, call_default_getbool,
      artwork_discogs_default_getbool]
  · simp [settings_option_getbool, ht, hv, hf, call_default_getbool,
      artwork_coverartarchive_default_getbool]

/-- The options of the `artwork` category, by name. -/
theorem artwork_options_cases (o : settings_option) (ho : o ∈ artwork_options) :
    (o.name = "use_artwork_source_spotify" →
      o.type = settings_type.SETTINGS_TYPE_BOOL ∧
        o.default_getbool = some getbool_fn.artwork_spotify_default_getbool) ∧
    (o.name = "use_artwork_source_discogs" →
      o.type = settings_type.SETTINGS_TYPE_BOOL ∧
        o.default_getbool = some getbool_fn.artwork_discogs_default_getbool) ∧
    (o.name = "use_artwork_source_coverartarchive" →
      o.type = settings_type.SETTINGS_TYPE_BOOL ∧
        o.default_getbool = some getbool_fn.artwork_coverartarchive_default_getbool) := by
  simp only [artwork_options, List.mem_cons, List.mem_singleton, List.not_mem_nil,
    or_false] at ho
  rcases ho with rfl | rfl | rfl <;> decide

/-- C4. Allow-list membership tier: with a non-empty allow-list and no stored
value, `settings_option_getbool` on the catalog options
`use_artwork_source_spotify`, `use_artwork_source_discogs` and
`use_artwork_source_coverartarchive` returns true exactly when some entry of the
list equals "spotify", "discogs", "coverartarchive" respectively
case-insensitively, the three sources alike. With the allow-list `["discogs"]`
the Spotify option reads false, the Discogs option true and the CoverArtArchive
option false. -/
theorem allow_list_membership {σ : Type} (db : database σ) (R : resolvers σ) (s : σ)
    (o : settings_option) (ho : o ∈ artwork_options)
    (hv : db.db_admin_getint s o.name = none) :
    (∀ cfg : cfg_t, cfg.library_artwork_online_sources ≠ [] →
      (o.name = "use_artwork_source_spotify" →
        (settings_option_getbool db R cfg s (some o) = true ↔
          ∃ e ∈ cfg.library_artwork_online_sources, casefold e = casefold "spotify")) ∧
      (o.name = "use_artwork_source_discogs" →
        (settings_option_getbool db R cfg s (some o) = true ↔
          ∃ e ∈ cfg.library_artwork_online_sources, casefold e = casefold "discogs")) ∧
      (o.name = "use_artwork_source_coverartarchive" →
        (settings_option_getbool db R cfg s (some o) = true ↔
          ∃ e ∈ cfg.library_artwork_online_sources,
            casefold e = casefold "coverartarchive"))) ∧
    (o.name = "use_artwork_source_spotify" →
      settings_option_getbool db R ⟨["discogs"]⟩ s (some o) = false) ∧
    (o.name = "use_artwork_source_discogs" →
      settings_option_getbool db R ⟨["discogs"]⟩ s (some o) = true) ∧
    (o.name = "use_artwork_source_coverartarchive" →
      settings_option_getbool db R ⟨["discogs"]⟩ s (some o) = false) := by
  obtain ⟨h1, h2, h3⟩ := artwork_options_cases o ho
  refine ⟨?_, ?_, ?_, ?_⟩
  · intro cfg hL
    refine ⟨?_, ?_, ?_⟩ <;> intro hn
    · obtain ⟨ht, hf⟩ := h1 hn
      rw [(getbool_artwork db R cfg s o ht hv).1 hf]
      exact (artwork_default_getbool_spec cfg true "spotify").2 hL
    · obtain ⟨ht, hf⟩ := h2 hn
      rw [(getbool_artwork db R cfg s o ht hv).2.1 hf]
      exact (artwork_default_getbool_spec cfg false "discogs").2 hL
    · obtain ⟨ht, hf⟩ := h3 hn
      rw [(getbool_artwork db R cfg s o ht hv).2.2 hf]
      exact (artwork_default_getbool_spec cfg false "coverartarchive").2 hL
  · intro hn
    obtain ⟨ht, hf⟩ := h1 hn
    rw [(getbool_artwork db R _ s o ht hv).1 hf]
    decide
  · intro hn
    obtain ⟨ht, hf⟩ := h2 hn
    rw [(getbool_artwork db R _ s o ht hv).2.1 hf]
    decide
  · intro hn
    obtain ⟨ht, hf⟩ := h3 hn
    rw [(getbool_artwork db R _ s o ht hv).2.2 hf]
    decide

/-- C4 at a concrete input: on the empty store with the allow-list
`["Spotify", "DISCOGS"]` the Discogs option reads through the membership test. -/
theorem allow_list_membership_witness :
    (⟨"use_artwork_source_discogs", settings_type.SETTINGS_TYPE_BOOL, none,
        some getbool_fn.artwork_discogs_default_getbool, none⟩ : settings_option) ∈
        artwork_options ∧
      mem_db.db_admin_getint [] "use_artwork_source_discogs" = none ∧
      (settings_option_getbool mem_db (no_resolvers _) ⟨["Spotify", "DISCOGS"]⟩ []
          (some ⟨"use_artwork_source_discogs", settings_type.SETTINGS_TYPE_BOOL, none,
            some getbool_fn.artwork_discogs_default_getbool, none⟩) = true ↔
        ∃ e ∈ ["Spotify", "DISCOGS"], casefold e = casefold "discogs") :=
  ⟨by decide, rfl,
    ((allow_list_membership mem_db (no_resolvers _) []
      ⟨"use_artwork_source_discogs", settings_type.SETTINGS_TYPE_BOOL, none,
        some getbool_fn.artwork_discogs_default_getbool, none⟩ (by decide) rfl).1
      ⟨["Spotify", "DISCOGS"]⟩ (by decide)).2.1 rfl⟩

/-- C5. Unconfigured tier: with no stored value and an empty allow-list,
`settings_option_getbool` returns true on the catalog option
`use_artwork_source_spotify` and false on `use_artwork_source_discogs` and
`use_artwork_source_coverartarchive`. -/
theorem unconfigured_tier {σ : Type} (db : database σ) (R : resolvers σ) (s : σ)
    (o : settings_option) (ho : o ∈ artwork_options)
    (hv : db.db_admin_getint s o.name = none) :
    (o.name = "use_artwork_source_spotify" →
      settings_option_getbool db R ⟨[]⟩ s (some o) = true) ∧
    (o.name = "use_artwork_source_discogs" →
      settings_option_getbool db R ⟨[]⟩ s (some o) = false) ∧
    (o.name = "use_artwork_source_coverartarchive" →
      settings_option_getbool db R ⟨[]⟩ s (some o) = false) := by
  obtain ⟨h1, h2, h3⟩ := artwork_options_cases o ho
  refine ⟨?_, ?_, ?_⟩ <;> intro hn
  · obtain ⟨ht, hf⟩ := h1 hn
    rw [(getbool_artwork db R _ s o ht hv).1 hf]
    exact (artwork_default_getbool_spec ⟨[]⟩ true "spotify").1 rfl
  · obtain ⟨ht, hf⟩ := h2 hn
    rw [(getbool_artwork db R _ s o ht hv).2.1 hf]
    exact (artwork_default_getbool_spec ⟨[]⟩ false "discogs").1 rfl
  · obtain ⟨ht, hf⟩ := h3 hn
    rw [(getbool_artwork db R _ s o ht hv).2.2 hf]
    exact (artwork_default_getbool_spec ⟨[]⟩ false "coverartarchive").1 rfl

/-- C5 at a concrete input: on the empty store and the empty allow-list the
Spotify option of the catalog reads true. -/
theorem unconfigured_tier_witness :
    (⟨"use_artwork_source_spotify", settings_type.SETTINGS_TYPE_BOOL, none,
        some getbool_fn.artwork_spotify_default_getbool, none⟩ : settings_option) ∈
        artwork_options ∧
      mem_db.db_admin_getint [] "use_artwork_source_spotify" = none ∧
      settings_option_getbool mem_db (no_resolvers _) ⟨[]⟩ []
        (some ⟨"use_artwork_source_spotify", settings_type.SETTINGS_TYPE_BOOL, none,
          some getbool_fn.artwork_spotify_default_getbool, none⟩) = true :=
  ⟨by decide, rfl,
    (unconfigured_tier mem_db (no_resolvers _) []
      ⟨"use_artwork_source_spotify", settings_type.SETTINGS_TYPE_BOOL, none,
        some getbool_fn.artwork_spotify_default_getbool, none⟩ (by decide) rfl).1 rfl⟩

/-- C6. Default fallback without resolver: on an option of the accessor type
with no stored value and a null resolver slot of that type,
`settings_option_getbool` returns false, `settings_option_getint` returns 0 and
`settings_option_getstr` returns absent; in particular, on a store without
values `show_composer_now_playing` reads false and `show_composer_for_genre`
reads absent. -/
theorem default_fallback {σ : Type} (db : database σ) (R : resolvers σ) (cfg : cfg_t) (s : σ)
    (o : settings_option) :
    (o.type = settings_type.SETTINGS_TYPE_BOOL → db.db_admin_getint s o.name = none →
      o.default_getbool = none → settings_option_getbool db R cfg s (some o) = false) ∧
    (o.type = settings_type.SETTINGS_TYPE_INT → db.db_admin_getint s o.name = none →
      o.default_getint = none → settings_option_getint db R cfg s (some o) = 0) ∧
    (o.type = settings_type.SETTINGS_TYPE_STR → db.db_admin_get s o.name = none →
      o.default_getstr = none → settings_option_getstr db R cfg s (some o) = none) ∧
    (o ∈ webinterface_options → o.name = "show_composer_now_playing" →
      db.db_admin_getint s o.name = none →
      settings_option_getbool db R cfg s (some o) = false) ∧
    (o ∈ webinterface_options → o.name = "show_composer_for_genre" →
      db.db_admin_get s o.name = none →
      settings_option_getstr db R cfg s (some o) = none) := by
  refine ⟨?_, ?_, ?_, ?_, ?_⟩
  · intro ht hv hr
    simp [settings_option_getbool, ht, hv, hr]
  · intro ht hv hr
    simp [settings_option_getint, ht, hv, hr]
  · intro ht hv hr
    simp [settings_option_getstr, ht, hv, hr]
  · intro ho hn hv
    simp only [webinterface_options, List.mem_cons, List.mem_singleton, List.not_mem_nil,
      or_false] at ho
    rcases ho with rfl | rfl
    · simp only [] at hv
      simp [settings_option_getbool, hv]
    · exact absurd hn (by decide)
  · intro ho hn hv
    simp only [webinterface_options, List.mem_cons, List.mem_singleton, List.not_mem_nil,
      or_false] at ho
    rcases ho with rfl | rfl
    · exact absurd hn (by decide)
    · simp only [] at hv
      simp [settings_option_getstr, hv]

/-- C6 at a concrete input: on the empty store `show_composer_now_playing` reads
false and `show_composer_for_genre` reads absent. -/
theorem default_fallback_witness :
    settings_option_getbool mem_db (no_resolvers _) ⟨["discogs"]⟩ []
        (some ⟨"show_composer_now_playing", settings_type.SETTINGS_TYPE_BOOL,
          none, none, none⟩) = false ∧
      settings_option_getstr mem_db (no_resolvers _) ⟨["discogs"]⟩ []
        (some ⟨"show_composer_for_genre", settings_type.SETTINGS_TYPE_STR,
          none, none, none⟩) = none :=
  ⟨(default_fallback mem_db (no_resolvers _) ⟨["discogs"]⟩ []
      ⟨"show_composer_now_playing", settings_type.SETTINGS_TYPE_BOOL, none, none, none⟩).2.2.2.1
      (by decide) rfl rfl,
    (default_fallback mem_db (no_resolvers _) ⟨["discogs"]⟩ []
      ⟨"show_composer_for_genre", settings_type.SETTINGS_TYPE_STR, none, none, none⟩).2.2.2.2
      (by decide) rfl rfl⟩

/-- C7. Resolver fallback: on an option of the accessor type with no stored
value and a resolver in the slot of that type, each getter returns exactly what
the resolver returns on the option: the function of the resolver table at the
address in the slot, or for the three static resolvers of `settings.c` the
function `artwork_spotify_default_getbool`, `artwork_discogs_default_getbool` or
`artwork_coverartarchive_default_getbool` itself; and when the store holds a
value the result of the getter is the same under every resolver table and every
configuration, so the resolver contributes to the result only when the store has
no value. -/
theorem resolver_fallback {σ : Type} (db : database σ) (R : resolvers σ) (cfg : cfg_t) (s : σ)
    (o : settings_option) :
    (∀ r : Nat, o.type = settings_type.SETTINGS_TYPE_INT →
      db.db_admin_getint s o.name = none → o.default_getint = some r →
      settings_option_getint db R cfg s (some o) = R.getint r cfg s o) ∧
    (∀ addr : Nat, o.type = settings_type.SETTINGS_TYPE_BOOL →
      db.db_admin_getint s o.name = none →
      o.default_getbool = some (getbool_fn.other addr) →
      settings_option_getbool db R cfg s (some o) = R.getbool addr cfg s o) ∧
    (o.type = settings_type.SETTINGS_TYPE_BOOL → db.db_admin_getint s o.name = none →
      o.default_getbool = some getbool_fn.artwork_spotify_default_getbool →
      settings_option_getbool db R cfg s (some o) = artwork_spotify_default_getbool cfg o) ∧
    (o.type = settings_type.SETTINGS_TYPE_BOOL → db.db_admin_getint s o.name = none →
      o.default_getbool = some getbool_fn.artwork_discogs_default_getbool →
      settings_option_getbool db R cfg s (some o) = artwork_discogs_default_getbool cfg o) ∧
    (o.type = settings_type.SETTINGS_TYPE_BOOL → db.db_admin_getint s o.name = none →
      o.default_getbool = some getbool_fn.artwork_coverartarchive_default_getbool →
      settings_option_getbool db R cfg s (some o) =
        artwork_coverartarchive_default_getbool cfg o) ∧
    (∀ r : Nat, o.type = settings_type.SETTINGS_TYPE_STR →
      db.db_admin_get s o.name = none → o.default_getstr = some r →
      settings_option_getstr db R cfg s (some o) = R.getstr r cfg s o) ∧
    (∀ (R1 : resolvers σ) (cfg1 : cfg_t) (v : Int), db.db_admin_getint s o.name = some v →
      settings_option_getint db R cfg s (some o) = settings_option_getint db R1 cfg1 s (some o) ∧
      settings_option_getbool db R cfg s (some o) =
        settings_option_getbool db R1 cfg1 s (some o)) ∧
    (∀ (R1 : resolvers σ) (cfg1 : cfg_t) (str : String), db.db_admin_get s o.name = some str →
      settings_option_getstr db R cfg s (some o) =
        settings_option_getstr db R1 cfg1 s (some o)) := by
  refine ⟨?_, ?_, ?_, ?_, ?_, ?_, ?_, ?_⟩
  · intro r ht hv hr
    simp [settings_option_getint, ht, hv, hr]
  · intro addr ht hv hr
    simp [settings_option_getbool, ht, hv, hr, call_default_getbool]
  · intro ht hv hr
    simp [settings_option_getbool, ht, hv, hr, call_default_getbool]
  · intro ht hv hr
    simp [settings_option_getbool, ht, hv, hr, call_default_getbool]
  · intro ht hv hr
    simp [settings_option_getbool, ht, hv, hr, call_default_getbool]
  · intro r ht hv hr
    simp [settings_option_getstr, ht, hv, hr]
  · intro R1 cfg1 v hv
    simp [settings_option_getint, settings_option_getbool, hv]
  · intro R1 cfg1 str hv
    simp [settings_option_getstr, hv]

/-- C7 at concrete inputs, on the empty store, each result differing from the
fallback value of its getter: an Int-typed option `volume` with the resolver at
address 1 reads 6; a Bool-typed option `shuffle` with the resolver at address 2
reads true; the catalog option `use_artwork_source_spotify` reads what
`artwork_spotify_default_getbool` returns under the empty allow-list, true; a
Str-typed option `theme` with the resolver at address 3 reads its name. -/
theorem resolver_fallback_witness :
    settings_option_getint mem_db (typed_resolvers _) ⟨[]⟩ []
        (some ⟨"volume", settings_type.SETTINGS_TYPE_INT, some 1, none, none⟩) = 6 ∧
      settings_option_getbool mem_db (typed_resolvers _) ⟨[]⟩ []
        (some ⟨"shuffle", settings_type.SETTINGS_TYPE_BOOL, none,
          some (getbool_fn.other 2), none⟩) = true ∧
      settings_option_getbool mem_db (typed_resolvers _) ⟨[]⟩ []
        (some ⟨"use_artwork_source_spotify", settings_type.SETTINGS_TYPE_BOOL, none,
          some getbool_fn.artwork_spotify_default_getbool, none⟩) = true ∧
      settings_option_getstr mem_db (typed_resolvers _) ⟨[]⟩ []
        (some ⟨"theme", settings_type.SETTINGS_TYPE_STR, none, none, some 3⟩) = some "theme" :=
  ⟨(resolver_fallback mem_db (typed_resolvers _) ⟨[]⟩ []
      ⟨"volume", settings_type.SETTINGS_TYPE_INT, some 1, none, none⟩).1 1 rfl rfl rfl,
    (resolver_fallback mem_db (typed_resolvers _) ⟨[]⟩ []
      ⟨"shuffle", settings_type.SETTINGS_TYPE_BOOL, none, some (getbool_fn.other 2),
        none⟩).2.1 2 rfl rfl rfl,
    (resolver_fallback mem_db (typed_resolvers _) ⟨[]⟩ []
      ⟨"use_artwork_source_spotify", settings_type.SETTINGS_TYPE_BOOL, none,
        some getbool_fn.artwork_spotify_default_getbool, none⟩).2.2.1 rfl rfl rfl,
    (resolver_fallback mem_db (typed_resolvers _) ⟨[]⟩ []
      ⟨"theme", settings_type.SETTINGS_TYPE_STR, none, none, some 3⟩).2.2.2.2.2.1 3
      rfl rfl rfl⟩

/-- C8. Int round trip: on an Int-typed option, when the store write of `v`
under the option name succeeds and a read of that name from the store after the
write returns `v`, `settings_option_setint` returns 0 and
`settings_option_getint` on the resulting store returns `v`. -/
theorem int_round_trip {σ : Type} (db : database σ) (R : resolvers σ) (cfg : cfg_t) (s : σ)
    (o : settings_option) (v : Int) (ht : o.type = settings_type.SETTINGS_TYPE_INT)
    (hw : (db.db_admin_setint s o.name v).1 = 0)
    (hr : db.db_admin_getint (db.db_admin_setint s o.name v).2 o.name = some v) :
    (settings_option_setint db s (some o) v).1 = 0 ∧
      settings_option_getint db R cfg (settings_option_setint db s (some o) v).2 (some o) = v := by
  have hset : settings_option_setint db s (some o) v = db.db_admin_setint s o.name v := by
    simp [settings_option_setint, ht]
  rw [hset]
  exact ⟨hw, by simp [settings_option_getint, ht, hr]⟩

/-- C8 at a concrete input: value 42 written to and read from the reference
store through an Int-typed option that carries a resolver, starting from a store
that holds 7 under the name. -/
theorem int_round_trip_witness :
    (settings_option_setint mem_db [("volume", admin_value.int 7)]
        (some ⟨"volume", settings_type.SETTINGS_TYPE_INT, some 1, none, none⟩) 42).1 = 0 ∧
      settings_option_getint mem_db (sample_resolvers _) ⟨[]⟩
        (settings_option_setint mem_db [("volume", admin_value.int 7)]
          (some ⟨"volume", settings_type.SETTINGS_TYPE_INT, some 1, none, none⟩) 42).2
        (some ⟨"volume", settings_type.SETTINGS_TYPE_INT, some 1, none, none⟩) = 42 :=
  int_round_trip mem_db (sample_resolvers _) ⟨[]⟩ [("volume", admin_value.int 7)]
    ⟨"volume", settings_type.SETTINGS_TYPE_INT, some 1, none, none⟩ 42 rfl rfl (by decide)

/-! ## Registry lookups -/

/-- The test `strcasecmp(name, x) == 0` gives the same answer for two names with
the same case folding. -/
theorem strcasecmp_eq_zero_congr {n1 n2 : String} (h : casefold n1 = casefold n2) (x : String) :
    strcasecmp n1 x = 0 ↔ strcasecmp n2 x = 0 := by
  rw [strcasecmp_eq_zero_iff, strcasecmp_eq_zero_iff, h]

theorem settings_category_get_loop_congr {n1 n2 : String} (h : casefold n1 = casefold n2) :
    ∀ (todo : Nat) (i : Int),
      settings_category_get_loop (some n1) todo i = settings_category_get_loop (some n2) todo i
  | 0, _ => rfl
  | todo + 1, i => by
    simp only [settings_category_get_loop]
    cases array_read categories i with
    | fault => rfl
    | ret c =>
      simp only []
      by_cases h0 : strcasecmp n1 c.name = 0
      · have h2 := (strcasecmp_eq_zero_congr h c.name).1 h0
        simp [h0, h2]
      · have h2 : ¬ strcasecmp n2 c.name = 0 := fun h3 =>
          h0 ((strcasecmp_eq_zero_congr h c.name).2 h3)
        simp [h0, h2, settings_category_get_loop_congr h todo (i + 1)]

theorem settings_option_get_loop_congr (c : settings_category) {n1 n2 : String}
    (h : casefold n1 = casefold n2) :
    ∀ (todo : Nat) (i : Int),
      settings_option_get_loop c n1 todo i = settings_option_get_loop c n2 todo i
  | 0, _ => rfl
  | todo + 1, i => by
    simp only [settings_option_get_loop]
    cases array_read c.options i with
    | fault => rfl
    | ret o =>
      simp only []
      by_cases h0 : strcasecmp n1 o.name = 0
      · have h2 := (strcasecmp_eq_zero_congr h o.name).1 h0
        simp [h0, h2]
      · have h2 : ¬ strcasecmp n2 o.name = 0 := fun h3 =>
          h0 ((strcasecmp_eq_zero_congr h o.name).2 h3)
        simp [h0, h2, settings_option_get_loop_congr c h todo (i + 1)]

/-- C9. Index/name consistency for options: for every category of the catalog
`settings_option_count` returns a count, and for every index from 0 below that
count `settings_option_get_byindex` returns a present option whose name, passed
to `settings_option_get` on the same category, finds that very option. -/
theorem option_index_name_consistent (C : settings_category) (hC : C ∈ categories) :
    ∃ n : Int, settings_option_count (some C) = Result.ret n ∧
      ∀ i : Int, 0 ≤ i → i < n →
        ∃ O : settings_option,
          settings_option_get_byindex (some C) i = Result.ret (some O) ∧
          settings_option_get (some C) (some O.name) = Result.ret (some O) := by
  simp only [categories, List.mem_cons, List.mem_singleton, List.not_mem_nil, or_false] at hC
  rcases hC with rfl | rfl
  · refine ⟨2, by decide, ?_⟩
    intro i h0 h1
    have hi : i = 0 ∨ i = 1 := by omega
    rcases hi with rfl | rfl
    · exact ⟨_, rfl, by decide⟩
    · exact ⟨_, rfl, by decide⟩
  · refine ⟨3, by decide, ?_⟩
    intro i h0 h1
    have hi : i = 0 ∨ i = 1 ∨ i = 2 := by omega
    rcases hi with rfl | rfl | rfl
    · exact ⟨_, rfl, by decide⟩
    · exact ⟨_, rfl, by decide⟩
    · exact ⟨_, rfl, by decide⟩

/-- C9 at a concrete input: the `artwork` category has a count of options. -/
theorem option_index_name_consistent_witness :
    (⟨"artwork", artwork_options, 3⟩ : settings_category) ∈ categories ∧
      ∃ n : Int, settings_option_count (some ⟨"artwork", artwork_options, 3⟩) = Result.ret n ∧
        ∀ i : Int, 0 ≤ i → i < n →
          ∃ O : settings_option,
            settings_option_get_byindex (some ⟨"artwork", artwork_options, 3⟩) i =
              Result.ret (some O) ∧
            settings_option_get (some ⟨"artwork", artwork_options, 3⟩) (some O.name) =
              Result.ret (some O) :=
  ⟨by decide, option_index_name_consistent ⟨"artwork", artwork_options, 3⟩ (by decide)⟩

/-- C10. Name lookups are case-insensitive: for two names with the same ASCII
case folding `settings_category_get` returns the same result, and so does
`settings_option_get` on every category; `settings_category_get` on "Artwork"
and on "artwork" both return the artwork category of the catalog. -/
theorem name_lookup_case_insensitive (n1 n2 : String) :
    (casefold n1 = casefold n2 →
      settings_category_get (some n1) = settings_category_get (some n2) ∧
      ∀ C : Option settings_category,
        settings_option_get C (some n1) = settings_option_get C (some n2)) ∧
    settings_category_get (some "Artwork") =
      Result.ret (some ⟨"artwork", artwork_options, ARRAY_SIZE artwork_options⟩) ∧
    settings_category_get (some "artwork") =
      Result.ret (some ⟨"artwork", artwork_options, ARRAY_SIZE artwork_options⟩) := by
  refine ⟨?_, by decide, by decide⟩
  intro h
  refine ⟨settings_category_get_loop_congr h _ _, ?_⟩
  intro C
  cases C with
  | none => rfl
  | some c => exact settings_option_get_loop_congr c h _ _

/-- C10 at a concrete input: the names "USE_Artwork_Source_Discogs" and
"use_artwork_source_discogs" find the same option of the artwork category. -/
theorem name_lookup_case_insensitive_witness :
    casefold "USE_Artwork_Source_Discogs" = casefold "use_artwork_source_discogs" ∧
      settings_option_get (some ⟨"artwork", artwork_options, 3⟩)
          (some "USE_Artwork_Source_Discogs") =
        settings_option_get (some ⟨"artwork", artwork_options, 3⟩)
          (some "use_artwork_source_discogs") :=
  ⟨by decide,
    ((name_lookup_case_insensitive "USE_Artwork_Source_Discogs"
      "use_artwork_source_discogs").1 (by decide)).2 _⟩

/-! ## Soundness and completeness of the name lookups -/

theorem array_read_cast {α : Type} (a : List α) (k : Nat) (h : k < a.length) :
    array_read a (k : Int) = Result.ret (a.get ⟨k, h⟩) := by
  have hneg : ¬ ((k : Int) < 0) := by omega
  simp [array_read, hneg, List.getElem?_eq_getElem h]

theorem array_read_fault_of_le {α : Type} (a : List α) (k : Nat) (h : a.length ≤ k) :
    array_read a (k : Int) = Result.fault := by
  have hneg : ¬ ((k : Int) < 0) := by omega
  simp [array_read, hneg, List.getElem?_eq_none h]

/-- The loop of `settings_category_get` over a readable range of the array is
the search for the first matching category of that range. -/
theorem settings_category_get_loop_eq (n : String) :
    ∀ (todo k : Nat), k + todo ≤ categories.length →
      settings_category_get_loop (some n) todo (k : Int) =
        Result.ret (((categories.drop k).take todo).find?
          (fun c => decide (casefold n = casefold c.name)))
  | 0, _, _ => by simp [settings_category_get_loop]
  | todo + 1, k, h => by
    have hk : k < categories.length := by omega
    have ih := settings_category_get_loop_eq n todo (k + 1) (by omega)
    rw [List.drop_eq_getElem_cons hk]
    simp only [settings_category_get_loop, array_read_cast categories k hk, List.take_succ_cons,
      List.find?_cons, List.get_eq_getElem]
    by_cases h0 : strcasecmp n categories[k].name = 0
    · have h1 := (strcasecmp_eq_zero_iff _ _).1 h0
      simp [h0, h1]
    · have h1 : ¬ casefold n = casefold categories[k].name := fun h2 =>
        h0 ((strcasecmp_eq_zero_iff _ _).2 h2)
      have hc : ((k : Int) + 1) = ((k + 1 : Nat) : Int) := by push_cast; rfl
      simp only [h0, h1, if_false, decide_False, hc, ih]

/-- The loop of `settings_option_get` over a readable range of the options array
is the search for the first matching option of that range. -/
theorem settings_option_get_loop_eq (c : settings_category) (n : String) :
    ∀ (todo k : Nat), k + todo ≤ c.options.length →
      settings_option_get_loop c n todo (k : Int) =
        Result.ret (((c.options.drop k).take todo).find?
          (fun o => decide (casefold n = casefold o.name)))
  | 0, _, _ => by simp [settings_option_get_loop]
  | todo + 1, k, h => by
    have hk : k < c.options.length := by omega
    have ih := settings_option_get_loop_eq c n todo (k + 1) (by omega)
    rw [List.drop_eq_getElem_cons hk]
    simp only [settings_option_get_loop, array_read_cast c.options k hk, List.take_succ_cons,
      List.find?_cons, List.get_eq_getElem]
    by_cases h0 : strcasecmp n c.options[k].name = 0
    · have h1 := (strcasecmp_eq_zero_iff _ _).1 h0
      simp [h0, h1]
    · have h1 : ¬ casefold n = casefold c.options[k].name := fun h2 =>
        h0 ((strcasecmp_eq_zero_iff _ _).2 h2)
      have hc : ((k : Int) + 1) = ((k + 1 : Nat) : Int) := by push_cast; rfl
      simp only [h0, h1, if_false, decide_False, hc, ih]

/-- The result of `settings_category_get` on a non-null name. -/
theorem settings_category_get_eq_find (n : String) :
    settings_category_get (some n) =
      Result.ret (categories.find? (fun c => decide (casefold n = casefold c.name))) := by
  have h := settings_category_get_loop_eq n 2 0 (by decide)
  simpa [settings_category_get, settings_categories_count, ARRAY_SIZE, categories] using h

/-- C11. Name lookup is sound and complete: on a non-null name
`settings_category_get` returns the first category in declaration order whose
name has the case folding of the name, and absent exactly when no category has
it; on a present category whose options array holds its `count_options` entries
`settings_option_get` returns the first of these options whose name has the case
folding of the name, and absent exactly when none has it. The proper prefix
"art" and the extension "artwork2" of a catalog name are absent. -/
theorem name_lookup_sound_complete (n : String) :
    settings_category_get (some n) =
      Result.ret (categories.find? (fun c => decide (casefold n = casefold c.name))) ∧
    (settings_category_get (some n) = Result.ret none ↔
      ∀ c ∈ categories, casefold n ≠ casefold c.name) ∧
    (∀ C : settings_category, C.count_options ≤ C.options.length →
      settings_option_get (some C) (some n) =
        Result.ret ((C.options.take C.count_options.toNat).find?
          (fun o => decide (casefold n = casefold o.name))) ∧
      (settings_option_get (some C) (some n) = Result.ret none ↔
        ∀ o ∈ C.options.take C.count_options.toNat, casefold n ≠ casefold o.name)) ∧
    (∀ C ∈ categories, settings_option_get (some C) (some n) =
      Result.ret (C.options.find? (fun o => decide (casefold n = casefold o.name)))) ∧
    settings_category_get (some "art") = Result.ret none ∧
    settings_category_get (some "artwork2") = Result.ret none ∧
    (∀ C ∈ categories,
      settings_option_get (some C) (some "use_artwork_source") = Result.ret none ∧
      settings_option_get (some C) (some "use_artwork_source_discogs2") = Result.ret none) := by
  have hopt : ∀ C : settings_category, C.count_options ≤ C.options.length →
      settings_option_get (some C) (some n) =
        Result.ret ((C.options.take C.count_options.toNat).find?
          (fun o => decide (casefold n = casefold o.name))) := by
    intro C hC
    have h := settings_option_get_loop_eq C n C.count_options.toNat 0 (by omega)
    simpa [settings_option_get] using h
  refine ⟨settings_category_get_eq_find n, ?_, ?_, ?_, by decide, by decide, by decide⟩
  · rw [settings_category_get_eq_find]
    simp [List.find?_eq_none]
  · intro C hC
    refine ⟨hopt C hC, ?_⟩
    rw [hopt C hC]
    simp [List.find?_eq_none]
  · intro C hC
    simp only [categories, List.mem_cons, List.mem_singleton, List.not_mem_nil, or_false] at hC
    rcases hC with rfl | rfl
    · have h := hopt ⟨"webinterface", webinterface_options, ARRAY_SIZE webinterface_options⟩
        (by decide)
      simpa [ARRAY_SIZE, webinterface_options] using h
    · have h := hopt ⟨"artwork", artwork_options, ARRAY_SIZE artwork_options⟩ (by decide)
      simpa [ARRAY_SIZE, artwork_options] using h

/-- C11 at a concrete input: in a category that declares two of the three
entries of its array, the name of the second entry is found and it is the first
match. -/
theorem name_lookup_sound_complete_witness :
    ((2 : Int) ≤ (artwork_options.length : Int)) ∧
      settings_option_get (some ⟨"artwork", artwork_options, 2⟩)
          (some "USE_ARTWORK_SOURCE_DISCOGS") =
        Result.ret ((artwork_options.take 2).find?
          (fun o => decide (casefold "USE_ARTWORK_SOURCE_DISCOGS" = casefold o.name))) :=
  ⟨by decide,
    (((name_lookup_sound_complete "USE_ARTWORK_SOURCE_DISCOGS").2.2.1
      ⟨"artwork", artwork_options, 2⟩ (by decide)).1)⟩

/-! ## Null arguments and index lookups -/

/-- C12. Null arguments: `settings_category_get` on a null name reaches
`strcasecmp` with the null pointer and `settings_option_count` on a null
category dereferences it, so both calls are undefined instead of returning a
sentinel; the sibling lookups `settings_option_get` and
`settings_option_get_byindex` do test their arguments and return absent. -/
theorem null_arguments :
    settings_category_get none = Result.fault ∧
    settings_option_count none = Result.fault ∧
    (∀ name : Option String, settings_option_get none name = Result.ret none) ∧
    (∀ C : Option settings_category, settings_option_get C none = Result.ret none) ∧
    (∀ i : Int, settings_option_get_byindex none i = Result.ret none) := by
  refine ⟨by decide, rfl, fun _ => rfl, ?_, ?_⟩
  · intro C
    cases C <;> rfl
  · intro i
    unfold settings_option_get_byindex
    split_ifs <;> rfl

/-- C13. Index lookups are absent exactly out of range:
`settings_category_get_byindex` is absent exactly when the index is negative or
not below `settings_categories_count`, and otherwise returns the category at
that position of the declaration order (0 is webinterface, 1 is artwork);
`settings_option_get_byindex` is absent exactly when the category is absent or
the index is negative or not below `settings_option_count`, and otherwise
returns the option at that position of the options array. -/
theorem index_lookup_absent_iff (i : Int) :
    (settings_category_get_byindex i = Result.ret none ↔
      i < 0 ∨ settings_categories_count ≤ i) ∧
    (0 ≤ i → i < settings_categories_count →
      ∃ K, categories.get? i.toNat = some K ∧
        settings_category_get_byindex i = Result.ret (some K)) ∧
    settings_category_get_byindex 0 =
      Result.ret (some ⟨"webinterface", webinterface_options, ARRAY_SIZE webinterface_options⟩) ∧
    settings_category_get_byindex 1 =
      Result.ret (some ⟨"artwork", artwork_options, ARRAY_SIZE artwork_options⟩) ∧
    (∀ C : Option settings_category,
      settings_option_get_byindex C i = Result.ret none ↔
        C = none ∨ i < 0 ∨ ∃ n, settings_option_count C = Result.ret n ∧ n ≤ i) ∧
    (∀ c : settings_category, 0 ≤ i → i < c.count_options →
      c.count_options ≤ c.options.length →
      ∃ O, c.options.get? i.toNat = some O ∧
        settings_option_get_byindex (some c) i = Result.ret (some O)) := by
  refine ⟨?_, ?_, by decide, by decide, ?_, ?_⟩
  · constructor
    · intro h
      by_contra hc
      simp only [settings_category_get_byindex, hc, if_false] at h
      cases hr : array_read categories i with
      | ret c => simp [hr] at h
      | fault => simp [hr] at h
    · intro h
      simp [settings_category_get_byindex, h]
  · intro h0 h1
    have h2 : settings_categories_count = 2 := by decide
    have hi : i = 0 ∨ i = 1 := by omega
    rcases hi with rfl | rfl
    · exact ⟨_, rfl, by decide⟩
    · exact ⟨_, rfl, by decide⟩
  · intro C
    cases C with
    | none =>
      simp only [true_or, iff_true]
      unfold settings_option_get_byindex
      split_ifs <;> rfl
    | some c =>
      simp only [settings_option_count, Result.ret.injEq, exists_eq_left', false_or,
        reduceCtorEq]
      constructor
      · intro h
        by_contra hc
        have h1 : ¬ i < 0 := fun h2 => hc (Or.inl h2)
        have h2 : ¬ c.count_options ≤ i := fun h3 => hc (Or.inr h3)
        simp only [settings_option_get_byindex, h1, h2, if_false] at h
        cases hr : array_read c.options i with
        | ret o => simp [hr] at h
        | fault => simp [hr] at h
      · intro h
        unfold settings_option_get_byindex
        by_cases h1 : i < 0
        · simp [h1]
        · have h2 : c.count_options ≤ i := h.resolve_left h1
          simp [h1, h2]
  · intro c h0 h1 h2
    have hk : i.toNat < c.options.length := by omega
    have hi : i = (i.toNat : Int) := by omega
    have hr := array_read_cast c.options i.toNat hk
    rw [← hi] at hr
    refine ⟨c.options.get ⟨i.toNat, hk⟩, by simp [List.getElem?_eq_getElem hk], ?_⟩
    have h3 : ¬ i < 0 := by omega
    have h4 : ¬ c.count_options ≤ i := by omega
    simp [settings_option_get_byindex, h3, h4, hr]

/-- C13 at a concrete input: index 2 of the artwork category is its third
option. -/
theorem index_lookup_absent_iff_witness :
    ((0 : Int) ≤ 2) ∧ ((2 : Int) < 3) ∧ ((3 : Int) ≤ (artwork_options.length : Int)) ∧
      ∃ O, artwork_options.get? (2 : Int).toNat = some O ∧
        settings_option_get_byindex (some ⟨"artwork", artwork_options, 3⟩) 2 =
          Result.ret (some O) :=
  ⟨by decide, by decide, by decide,
    (index_lookup_absent_iff 2).2.2.2.2.2 ⟨"artwork", artwork_options, 3⟩
      (by decide) (by decide) (by decide)⟩

/-- C14. Registry invariant of the static catalog: the category names are
pairwise distinct after case folding; within each category the option names are
pairwise distinct after case folding; a non-null resolver sits only in the slot
of the declared type of its option; and `count_options` of each category is the
length of its options array. -/
theorem registry_invariant :
    (categories.map (fun c => casefold c.name)).Nodup ∧
    ∀ c ∈ categories,
      (c.options.map (fun o => casefold o.name)).Nodup ∧
      c.count_options = (c.options.length : Int) ∧
      ∀ o ∈ c.options,
        (o.default_getint ≠ none → o.type = settings_type.SETTINGS_TYPE_INT) ∧
        (o.default_getbool ≠ none → o.type = settings_type.SETTINGS_TYPE_BOOL) ∧
        (o.default_getstr ≠ none → o.type = settings_type.SETTINGS_TYPE_STR) ∧
        (o.type = settings_type.SETTINGS_TYPE_BOOL →
          o.default_getint = none ∧ o.default_getstr = none) := by
  decide

/-- C14 at a concrete input: the artwork category declares as many options as
its array holds. -/
theorem registry_invariant_witness :
    (⟨"artwork", artwork_options, ARRAY_SIZE artwork_options⟩ : settings_category) ∈
        categories ∧
      ARRAY_SIZE artwork_options = (artwork_options.length : Int) :=
  ⟨by decide,
    (registry_invariant.2 ⟨"artwork", artwork_options, ARRAY_SIZE artwork_options⟩
      (by decide)).2.1⟩

/-! ## Writes through the store -/

/-- C15. Well-typed writes delegate to the store: on a non-null option of the
accessor type each setter returns exactly what the one store write under the
option name returns, code and resulting store alike, so it fails exactly when
that write fails; `settings_option_setbool` writes 1 for true and 0 for
false. -/
theorem setters_delegate {σ : Type} (db : database σ) (s : σ) (o : settings_option) :
    (o.type = settings_type.SETTINGS_TYPE_INT → ∀ v : Int,
      settings_option_setint db s (some o) v = db.db_admin_setint s o.name v) ∧
    (o.type = settings_type.SETTINGS_TYPE_BOOL →
      settings_option_setbool db s (some o) true = db.db_admin_setint s o.name 1 ∧
      settings_option_setbool db s (some o) false = db.db_admin_setint s o.name 0) ∧
    (o.type = settings_type.SETTINGS_TYPE_STR → ∀ v : String,
      settings_option_setstr db s (some o) v = db.db_admin_set s o.name v) := by
  refine ⟨?_, ?_, ?_⟩
  · intro ht v
    simp [settings_option_setint, ht]
  · intro ht
    simp [settings_option_setbool, ht]
  · intro ht v
    simp [settings_option_setstr, ht]

/-- C15 at a concrete input: on the unavailable store the failure code of the
write is the result of `settings_option_setint` and the store is as before. -/
theorem setters_delegate_witness :
    settings_option_setint (failing_db (List Nat)) [3]
      (some ⟨"volume", settings_type.SETTINGS_TYPE_INT, none, none, none⟩) 5 = (-1, [3]) :=
  (setters_delegate (failing_db (List Nat)) [3]
    ⟨"volume", settings_type.SETTINGS_TYPE_INT, none, none, none⟩).1 rfl 5

/-- C16. Bool and Str round trip: on a Bool-typed option, when the store write
of the 0/1 image of `b` succeeds and the read-back of the name returns it,
`settings_option_setbool` succeeds and `settings_option_getbool` on the resulting
store returns `b`, whatever resolver the option carries and whatever the
allow-list; on a Str-typed option, when the write of `str` succeeds and the
read-back returns it, `settings_option_setstr` succeeds and
`settings_option_getstr` returns `str`. -/
theorem bool_str_round_trip {σ : Type} (db : database σ) (R : resolvers σ) (cfg : cfg_t) (s : σ)
    (o : settings_option) :
    (∀ b : Bool, o.type = settings_type.SETTINGS_TYPE_BOOL →
      (db.db_admin_setint s o.name (if b then 1 else 0)).1 = 0 →
      db.db_admin_getint (db.db_admin_setint s o.name (if b then 1 else 0)).2 o.name =
        some (if b then 1 else 0) →
      (settings_option_setbool db s (some o) b).1 = 0 ∧
      settings_option_getbool db R cfg (settings_option_setbool db s (some o) b).2 (some o) = b) ∧
    (∀ str : String, o.type = settings_type.SETTINGS_TYPE_STR →
      (db.db_admin_set s o.name str).1 = 0 →
      db.db_admin_get (db.db_admin_set s o.name str).2 o.name = some str →
      (settings_option_setstr db s (some o) str).1 = 0 ∧
      settings_option_getstr db R cfg (settings_option_setstr db s (some o) str).2 (some o) =
        some str) := by
  refine ⟨?_, ?_⟩
  · intro b ht hw hr
    have hset : settings_option_setbool db s (some o) b =
        db.db_admin_setint s o.name (if b then 1 else 0) := by
      simp [settings_option_setbool, ht]
    rw [hset]
    refine ⟨hw, ?_⟩
    cases b
    · simp only [Bool.false_eq_true, if_false] at hr
      simp [settings_option_getbool, ht, hr]
    · simp only [if_true] at hr
      simp [settings_option_getbool, ht, hr]
  · intro str ht hw hr
    have hset : settings_option_setstr db s (some o) str = db.db_admin_set s o.name str := by
      simp [settings_option_setstr, ht]
    rw [hset]
    exact ⟨hw, by simp [settings_option_getstr, ht, hr]⟩

/-- C16 at a concrete input: with the empty allow-list the resolver of
`use_artwork_source_spotify` returns true; after `settings_option_setbool` with
false on the reference store the option reads false. -/
theorem bool_str_round_trip_witness :
    (settings_option_setbool mem_db []
        (some ⟨"use_artwork_source_spotify", settings_type.SETTINGS_TYPE_BOOL, none,
          some getbool_fn.artwork_spotify_default_getbool, none⟩) false).1 = 0 ∧
      settings_option_getbool mem_db (no_resolvers _) ⟨[]⟩
        (settings_option_setbool mem_db []
          (some ⟨"use_artwork_source_spotify", settings_type.SETTINGS_TYPE_BOOL, none,
            some getbool_fn.artwork_spotify_default_getbool, none⟩) false).2
        (some ⟨"use_artwork_source_spotify", settings_type.SETTINGS_TYPE_BOOL, none,
          some getbool_fn.artwork_spotify_default_getbool, none⟩) = false :=
  (bool_str_round_trip mem_db (no_resolvers _) ⟨[]⟩ []
    ⟨"use_artwork_source_spotify", settings_type.SETTINGS_TYPE_BOOL, none,
      some getbool_fn.artwork_spotify_default_getbool, none⟩).1 false rfl rfl (by decide)

/-! ## Non-interference of the catalog options -/

/-- The reference store is keyed by name. -/
theorem mem_db_keyed_by_name : store_keyed_by_name mem_db := by
  intro s k k1 hk
  refine ⟨fun v => ?_, fun v => ?_⟩ <;> simp [mem_db, admin_lookup, hk]

/-- Two distinct options of the catalog have names with distinct case foldings. -/
theorem catalog_names_distinct :
    ∀ o1 ∈ catalog_options, ∀ o2 ∈ catalog_options, o1 ≠ o2 →
      casefold o1.name ≠ casefold o2.name := by
  decide

/-- The options of the catalog carry no resolver defined outside `settings.c`. -/
theorem catalog_resolvers_static :
    ∀ o ∈ catalog_options, o.default_getint = none ∧ o.default_getstr = none ∧
      ∀ addr : Nat, o.default_getbool ≠ some (getbool_fn.other addr) := by
  intro o ho
  simp only [catalog_options, categories, webinterface_options, artwork_options, List.map_cons,
    List.map_nil, List.flatten, List.mem_cons, List.mem_append, List.not_mem_nil, or_false,
    List.append_nil] at ho
  rcases ho with (rfl | rfl) | (rfl | rfl | rfl) <;> simp

/-- On an option without a resolver defined elsewhere the getters depend on the
store only through the two reads under the option name. -/
theorem getters_congr {σ : Type} (db : database σ) (R : resolvers σ) (cfg : cfg_t) (s s1 : σ)
    (o : settings_option) (hi : o.default_getint = none) (hs : o.default_getstr = none)
    (hb : ∀ addr : Nat, o.default_getbool ≠ some (getbool_fn.other addr))
    (h1 : db.db_admin_getint s1 o.name = db.db_admin_getint s o.name)
    (h2 : db.db_admin_get s1 o.name = db.db_admin_get s o.name) :
    settings_option_getint db R cfg s1 (some o) = settings_option_getint db R cfg s (some o) ∧
    settings_option_getbool db R cfg s1 (some o) = settings_option_getbool db R cfg s (some o) ∧
    settings_option_getstr db R cfg s1 (some o) = settings_option_getstr db R cfg s (some o) := by
  refine ⟨?_, ?_, ?_⟩
  · simp [settings_option_getint, h1, hi]
  · simp only [settings_option_getbool, h1]
    cases hf : o.default_getbool with
    | none => rfl
    | some f =>
      cases f with
      | other addr => exact absurd hf (hb addr)
      | artwork_spotify_default_getbool => rfl
      | artwork_discogs_default_getbool => rfl
      | artwork_coverartarchive_default_getbool => rfl
  · simp [settings_option_getstr, h2, hs]

/-- The store after each setter on an option reads, under every other key, as
the store before it. -/
theorem setters_frame {σ : Type} (db : database σ) (hdb : store_keyed_by_name db) (s : σ)
    (o1 : settings_option) (k : String) (hk : o1.name ≠ k) :
    (∀ v : Int,
      db.db_admin_getint (settings_option_setint db s (some o1) v).2 k = db.db_admin_getint s k ∧
      db.db_admin_get (settings_option_setint db s (some o1) v).2 k = db.db_admin_get s k) ∧
    (∀ b : Bool,
      db.db_admin_getint (settings_option_setbool db s (some o1) b).2 k = db.db_admin_getint s k ∧
      db.db_admin_get (settings_option_setbool db s (some o1) b).2 k = db.db_admin_get s k) ∧
    (∀ v : String,
      db.db_admin_getint (settings_option_setstr db s (some o1) v).2 k = db.db_admin_getint s k ∧
      db.db_admin_get (settings_option_setstr db s (some o1) v).2 k = db.db_admin_get s k) := by
  obtain ⟨hint, hstr⟩ := hdb s o1.name k hk
  refine ⟨fun v => ?_, fun b => ?_, fun v => ?_⟩
  · unfold settings_option_setint
    by_cases ht : o1.type ≠ settings_type.SETTINGS_TYPE_INT
    · simp [ht]
    · simp only [ht, if_false]
      exact hint v
  · unfold settings_option_setbool
    by_cases ht : o1.type ≠ settings_type.SETTINGS_TYPE_BOOL
    · simp [ht]
    · simp only [ht, if_false]
      exact hint _
  · unfold settings_option_setstr
    by_cases ht : o1.type ≠ settings_type.SETTINGS_TYPE_STR
    · simp [ht]
    · simp only [ht, if_false]
      exact hstr v

/-- C17. Options do not interfere through the store: the five option names of
the catalog are pairwise distinct, also after case folding, and the setters pass
the option name alone as key; hence over a store keyed by name, for two distinct
catalog options `o1` and `o2`, every store state and every value, each setter on
`o1` leaves the result of every getter on `o2` unchanged. -/
theorem options_do_not_interfere {σ : Type} (db : database σ) (hdb : store_keyed_by_name db)
    (R : resolvers σ) (cfg : cfg_t) (s : σ) (o1 o2 : settings_option)
    (h1 : o1 ∈ catalog_options) (h2 : o2 ∈ catalog_options) (hne : o1 ≠ o2) :
    catalog_options.length = 5 ∧
    (catalog_options.map (fun o => casefold o.name)).Nodup ∧
    o1.name ≠ o2.name ∧
    (∀ v : Int,
      settings_option_getint db R cfg (settings_option_setint db s (some o1) v).2 (some o2) =
        settings_option_getint db R cfg s (some o2) ∧
      settings_option_getbool db R cfg (settings_option_setint db s (some o1) v).2 (some o2) =
        settings_option_getbool db R cfg s (some o2) ∧
      settings_option_getstr db R cfg (settings_option_setint db s (some o1) v).2 (some o2) =
        settings_option_getstr db R cfg s (some o2)) ∧
    (∀ b : Bool,
      settings_option_getint db R cfg (settings_option_setbool db s (some o1) b).2 (some o2) =
        settings_option_getint db R cfg s (some o2) ∧
      settings_option_getbool db R cfg (settings_option_setbool db s (some o1) b).2 (some o2) =
        settings_option_getbool db R cfg s (some o2) ∧
      settings_option_getstr db R cfg (settings_option_setbool db s (some o1) b).2 (some o2) =
        settings_option_getstr db R cfg s (some o2)) ∧
    (∀ v : String,
      settings_option_getint db R cfg (settings_option_setstr db s (some o1) v).2 (some o2) =
        settings_option_getint db R cfg s (some o2) ∧
      settings_option_getbool db R cfg (settings_option_setstr db s (some o1) v).2 (some o2) =
        settings_option_getbool db R cfg s (some o2) ∧
      settings_option_getstr db R cfg (settings_option_setstr db s (some o1) v).2 (some o2) =
        settings_option_getstr db R cfg s (some o2)) := by
  have hfold := catalog_names_distinct o1 h1 o2 h2 hne
  have hname : o1.name ≠ o2.name := fun h => hfold (by rw [h])
  obtain ⟨hi, hs, hb⟩ := catalog_resolvers_static o2 h2
  obtain ⟨f1, f2, f3⟩ := setters_frame db hdb s o1 o2.name hname
  refine ⟨by decide, by decide, hname, fun v => ?_, fun b => ?_, fun v => ?_⟩
  · exact getters_congr db R cfg s _ o2 hi hs hb (f1 v).1 (f1 v).2
  · exact getters_congr db R cfg s _ o2 hi hs hb (f2 b).1 (f2 b).2
  · exact getters_congr db R cfg s _ o2 hi hs hb (f3 v).1 (f3 v).2

/-- C17 at a concrete input: on the reference store, setting
`use_artwork_source_discogs` to true leaves the reading of
`use_artwork_source_spotify`, stored as 0, unchanged. -/
theorem options_do_not_interfere_witness :
    store_keyed_by_name mem_db ∧
      settings_option_getbool mem_db (no_resolvers _) ⟨[]⟩
          (settings_option_setbool mem_db [("use_artwork_source_spotify", admin_value.int 0)]
            (some ⟨"use_artwork_source_discogs", settings_type.SETTINGS_TYPE_BOOL, none,
              some getbool_fn.artwork_discogs_default_getbool, none⟩) true).2
          (some ⟨"use_artwork_source_spotify", settings_type.SETTINGS_TYPE_BOOL, none,
            some getbool_fn.artwork_spotify_default_getbool, none⟩) =
        settings_option_getbool mem_db (no_resolvers _) ⟨[]⟩
          [("use_artwork_source_spotify", admin_value.int 0)]
          (some ⟨"use_artwork_source_spotify", settings_type.SETTINGS_TYPE_BOOL, none,
            some getbool_fn.artwork_spotify_default_getbool, none⟩) :=
  ⟨mem_db_keyed_by_name,
    ((options_do_not_interfere mem_db mem_db_keyed_by_name (no_resolvers _) ⟨[]⟩
      [("use_artwork_source_spotify", admin_value.int 0)]
      ⟨"use_artwork_source_discogs", settings_type.SETTINGS_TYPE_BOOL, none,
        some getbool_fn.artwork_discogs_default_getbool, none⟩
      ⟨"use_artwork_source_spotify", settings_type.SETTINGS_TYPE_BOOL, none,
        some getbool_fn.artwork_spotify_default_getbool, none⟩
      (by decide) (by decide) (by decide)).2.2.2.2.1 true).2.1⟩

/-! ## Index/name consistency of the categories -/

/-- A category is returned for some index exactly when it is in the catalog. -/
theorem reachable_by_index_iff (K : settings_category) :
    (∃ i : Int, settings_category_get_byindex i = Result.ret (some K)) ↔ K ∈ categories := by
  constructor
  · rintro ⟨i, hi⟩
    by_cases hc : i < 0 ∨ settings_categories_count ≤ i
    · simp [settings_category_get_byindex, hc] at hi
    · have h2 : settings_categories_count = 2 := by decide
      have h3 : i = 0 ∨ i = 1 := by omega
      rcases h3 with rfl | rfl
      · have h4 : settings_category_get_byindex 0 = Result.ret (categories.get? 0) := by decide
        rw [h4] at hi
        have h5 : categories.get? 0 = some K := by
          injection hi
        exact List.get?_mem h5
      · have h4 : settings_category_get_byindex 1 = Result.ret (categories.get? 1) := by decide
        rw [h4] at hi
        have h5 : categories.get? 1 = some K := by
          injection hi
        exact List.get?_mem h5
  · intro hK
    simp only [categories, List.mem_cons, List.mem_singleton, List.not_mem_nil, or_false] at hK
    rcases hK with rfl | rfl
    · exact ⟨0, by decide⟩
    · exact ⟨1, by decide⟩

/-- A category is returned for some name exactly when it is in the catalog. -/
theorem reachable_by_name_iff (K : settings_category) :
    (∃ name : Option String, settings_category_get name = Result.ret (some K)) ↔
      K ∈ categories := by
  constructor
  · rintro ⟨name, hn⟩
    cases name with
    | none =>
      have h0 : settings_category_get none = Result.fault := by decide
      rw [h0] at hn
      cases hn
    | some n =>
      rw [settings_category_get_eq_find] at hn
      have h1 : categories.find? (fun c => decide (casefold n = casefold c.name)) = some K := by
        injection hn
      exact List.mem_of_find?_eq_some h1
  · intro hK
    simp only [categories, List.mem_cons, List.mem_singleton, List.not_mem_nil, or_false] at hK
    rcases hK with rfl | rfl
    · exact ⟨some "webinterface", by decide⟩
    · exact ⟨some "artwork", by decide⟩

/-- C18. Index/name consistency for categories: for every index from 0 below
`settings_categories_count`, `settings_category_get_byindex` returns a present
category and `settings_category_get` on its name returns that same category; a
category is reachable by index exactly when it is reachable by name, and
`settings_categories_count` is the number of distinct categories reachable by
name. -/
theorem category_index_name_consistent :
    (∀ i : Int, 0 ≤ i → i < settings_categories_count →
      ∃ K : settings_category,
        settings_category_get_byindex i = Result.ret (some K) ∧
        settings_category_get (some K.name) = Result.ret (some K)) ∧
    (∀ K : settings_category,
      (∃ i : Int, settings_category_get_byindex i = Result.ret (some K)) ↔
        ∃ name : Option String, settings_category_get name = Result.ret (some K)) ∧
    ((Set.ncard {K : settings_category |
        ∃ name : Option String, settings_category_get name = Result.ret (some K)} : Int) =
      settings_categories_count) := by
  refine ⟨?_, ?_, ?_⟩
  · intro i h0 h1
    have h2 : settings_categories_count = 2 := by decide
    have hi : i = 0 ∨ i = 1 := by omega
    rcases hi with rfl | rfl
    · exact ⟨_, rfl, by decide⟩
    · exact ⟨_, rfl, by decide⟩
  · intro K
    rw [reachable_by_index_iff, reachable_by_name_iff]
  · have hset : {K : settings_category |
        ∃ name : Option String, settings_category_get name = Result.ret (some K)} =
        (↑categories.toFinset : Set settings_category) := by
      ext K
      simp only [Set.mem_setOf_eq, Finset.mem_coe, List.mem_toFinset]
      exact reachable_by_name_iff K
    rw [hset, Set.ncard_coe_Finset]
    decide

/-- C18 at a concrete input: index 1 is a category that its own name finds. -/
theorem category_index_name_consistent_witness :
    ((0 : Int) ≤ 1) ∧ ((1 : Int) < settings_categories_count) ∧
      ∃ K : settings_category,
        settings_category_get_byindex 1 = Result.ret (some K) ∧
        settings_category_get (some K.name) = Result.ret (some K) :=
  ⟨by decide, by decide, category_index_name_consistent.1 1 (by decide) (by decide)⟩

end Settings
